import Mathlib

/-!
Shallow embedding of the AgriFarm sowing-window core (`bla_bla_bla.py`):
month-name normalization (`_normalize_nepali_month`), range resolution
(`get_nepali_sowing_dates`) and the per-place batch driver
(`get_crops_for_place`), together with proofs of the specification claims.
-/

namespace AgriFarm

/-! ## Python string primitives (ASCII fragment actually exercised by the code) -/

/-- Characters stripped by Python `str.strip()` (ASCII whitespace fragment). -/
def pyIsSpace (c : Char) : Bool :=
  c = ' ' || c = '\t' || c = '\n' || c = '\r' || c = '\x0b' || c = '\x0c'

/-- Python `str.strip()`. -/
def pyStrip (l : List Char) : List Char :=
  ((l.dropWhile pyIsSpace).reverse.dropWhile pyIsSpace).reverse

/-- Python `str.lower()` (ASCII). -/
def pyLower (l : List Char) : List Char := l.map Char.toLower

/-- Python `str.upper()` (ASCII). -/
def pyUpper (s : String) : String := String.mk (s.data.map Char.toUpper)

/-- Python `str.split(sep)` for a single-character separator: always returns at
least one (possibly empty) segment. -/
def splitOnChar (c : Char) : List Char → List (List Char)
  | [] => [[]]
  | x :: xs =>
    match splitOnChar c xs with
    | [] => [[x]]
    | h :: t => if x = c then [] :: h :: t else (x :: h) :: t

/-- Python substring containment `needle in hay`. -/
def containsSub (needle hay : List Char) : Bool :=
  (List.range (hay.length + 1)).any (fun i => needle.isPrefixOf (hay.drop i))

/-! ## Gregorian dates, mirroring CPython `datetime.date` -/

/-- A Gregorian calendar date, as constructed by `datetime.date(y, m, d)`. -/
structure Date where
  year : Int
  month : Int
  day : Int
deriving DecidableEq

/-- Python `datetime` leap-year test. -/
def isLeap (y : Int) : Bool :=
  y % 4 == 0 && (!(y % 100 == 0) || y % 400 == 0)

/-- Cumulative day counts before each month in a non-leap year
(`_DAYS_BEFORE_MONTH` in CPython `datetime`). -/
def dbmTable : Int → Int
  | 1 => 0
  | 2 => 31
  | 3 => 59
  | 4 => 90
  | 5 => 120
  | 6 => 151
  | 7 => 181
  | 8 => 212
  | 9 => 243
  | 10 => 273
  | 11 => 304
  | 12 => 334
  | _ => 0

/-- Leap-day adjustment used by `_days_before_month`. -/
def laAdj (y m : Int) : Int := if 2 < m ∧ isLeap y then 1 else 0

/-- Days before January 1 of year `y` (CPython `_days_before_year`); `/` on
`Int` is Euclidean division, which agrees with Python floor division here
because every divisor is positive. -/
def dby (y : Int) : Int :=
  365 * (y - 1) + (y - 1) / 4 - (y - 1) / 100 + (y - 1) / 400

/-- Proleptic Gregorian ordinal of a date (CPython `date.toordinal`). -/
def toOrdinal (d : Date) : Int :=
  dby d.year + dbmTable d.month + laAdj d.year d.month + d.day

/-- Number of days in a month (CPython `_days_in_month`). -/
def daysInMonth (y m : Int) : Int :=
  match m with
  | 1 => 31
  | 2 => if isLeap y then 29 else 28
  | 3 => 31
  | 4 => 30
  | 5 => 31
  | 6 => 30
  | 7 => 31
  | 8 => 31
  | 9 => 30
  | 10 => 31
  | 11 => 30
  | 12 => 31
  | _ => 0

/-- Calendar successor of a date. -/
def nextDay (d : Date) : Date :=
  if d.day < daysInMonth d.year d.month then ⟨d.year, d.month, d.day + 1⟩
  else if d.month < 12 then ⟨d.year, d.month + 1, 1⟩
  else ⟨d.year + 1, 1, 1⟩

/-- Python `date + timedelta(days=n)` for `n ≥ 0`, as iterated succession. -/
def addDays (d : Date) (n : Nat) : Date := nextDay^[n] d

/-- Python `date` comparison `a < b` (lexicographic on year, month, day). -/
def dateLt (a b : Date) : Bool :=
  decide (a.year < b.year ∨ (a.year = b.year ∧
    (a.month < b.month ∨ (a.month = b.month ∧ a.day < b.day))))

/-- Python `date` comparison `a <= b`. -/
def dateLe (a b : Date) : Bool := dateLt a b || decide (a = b)

/-! ## The canonical month table and the normalizer -/

/-- The `nepali_to_english_dates_conversion` dict: canonical Nepali month name
to its fixed Gregorian `(month, day)` anchor, in source insertion order. -/
def monthTable : List (String × Int × Int) :=
  [("Baisakh", 4, 14), ("Jestha", 5, 15), ("Ashad", 6, 15), ("Shrawan", 7, 16),
   ("Bhadra", 8, 17), ("Ashwin", 9, 17), ("Kartik", 10, 18), ("Mangsir", 11, 17),
   ("Poush", 12, 16), ("Magh", 1, 15), ("Falgun", 2, 14), ("Chaitra", 3, 15)]

/-- The dict keys, in iteration order. -/
def monthKeys : List String := monthTable.map (fun p => p.1)

/-- Dict lookup `nepali_to_english_dates_conversion[key]` (default never hit for
canonical keys). -/
def lookupMonth (k : String) : Int × Int :=
  ((monthTable.find? (fun p => p.1 = k)).map (fun p => p.2)).getD (0, 0)

/-- The `aliases` dict inside `_normalize_nepali_month`. -/
def aliasTable : List (String × String) :=
  [("asoj", "Ashwin"), ("ashoj", "Ashwin"), ("aswin", "Ashwin"),
   ("baishakh", "Baisakh"), ("baishak", "Baisakh"), ("baisakh", "Baisakh")]

/-- Longest common subsequence length (fuel-based structural recursion; the
fuel `x.length + y.length` always suffices, every call drops it by one while
consuming at least one list element). -/
def lcsAux : Nat → List Char → List Char → Nat
  | 0, _, _ => 0
  | _ + 1, [], _ => 0
  | _ + 1, _, [] => 0
  | fuel + 1, a :: as, b :: bs =>
    if a = b then 1 + lcsAux fuel as bs
    else max (lcsAux fuel as (b :: bs)) (lcsAux fuel (a :: as) bs)

/-- Longest common subsequence length, the matching-mass measure underlying the
similarity ratio. -/
def lcsLen (x y : List Char) : Nat := lcsAux (x.length + y.length) x y

/-- Similarity ratio `2 * M / T` of a token against a candidate key. -/
def fuzzyRatio (clean : List Char) (k : String) : ℚ :=
  (2 * (lcsLen clean k.data : ℚ)) / ((clean.length : ℚ) + (k.data.length : ℚ))

/-- Modelled from the spec: the `difflib.get_close_matches(clean, keys, n=1,
cutoff=0.5)` call (library code not in the repository): keep the candidates
whose edit-distance-based similarity ratio is at least `0.5`
(`2·M/T ≥ 1/2 ↔ 4·M ≥ T`) and return the single best one. -/
def fuzzyMatch (clean : List Char) : Option String :=
  (monthKeys.filter
      (fun k => 4 * lcsLen clean k.data ≥ clean.length + k.data.length)).argmax
    (fuzzyRatio clean)

/-- Failure outcomes of the core (`ValueError`s raised by
`_normalize_nepali_month`). -/
inductive NormError where
  | emptyInput : NormError
  | unrecognizedMonth : String → NormError
deriving DecidableEq

/-- Python `str(e)` for the two `ValueError`s the normalizer raises. -/
def errMsg : NormError → String
  | .emptyInput => "Empty month name"
  | .unrecognizedMonth raw => "Unrecognized Nepali month name: '" ++ raw ++ "'"

instance {ε α : Type} [DecidableEq ε] [DecidableEq α] : DecidableEq (Except ε α) :=
  fun a b =>
    match a, b with
    | .ok x, .ok y =>
      if h : x = y then isTrue (by rw [h]) else isFalse (fun hh => h (by cases hh; rfl))
    | .error x, .error y =>
      if h : x = y then isTrue (by rw [h]) else isFalse (fun hh => h (by cases hh; rfl))
    | .ok _, .error _ => isFalse (fun hh => Except.noConfusion hh)
    | .error _, .ok _ => isFalse (fun hh => Except.noConfusion hh)

/-- The `_normalize_nepali_month` function: exact case-insensitive match, then
alias lookup, then fuzzy match, then 3-character-prefix match; raises
`ValueError` (modelled as `Except.error`) on empty input or when no strategy
succeeds. -/
def _normalize_nepali_month (name : String) : Except NormError String :=
  if name = "" then Except.error NormError.emptyInput
  else
    match monthKeys.find? (fun k => pyLower (pyStrip name.data) = pyLower k.data) with
    | some k => Except.ok k
    | none =>
      match aliasTable.find? (fun p => pyLower (pyStrip name.data) = p.1.data) with
      | some p => Except.ok p.2
      | none =>
        match fuzzyMatch (pyStrip name.data) with
        | some k => Except.ok k
        | none =>
          match monthKeys.find?
              (fun k => ((pyLower (pyStrip name.data)).take 3).isPrefixOf (pyLower k.data)) with
          | some k => Except.ok k
          | none => Except.error (NormError.unrecognizedMonth name)

/-! ## The range resolver `get_nepali_sowing_dates` -/

/-- Replacement performed by `re.sub(r"[—-−–]", "–", s)`: the character class
contains the range em-dash (U+2014) through minus-sign (U+2212) plus the
en-dash (U+2013), i.e. exactly the codepoints U+2013..U+2212 — the ASCII
hyphen U+002D is not in the class. -/
def dashNorm (l : List Char) : List Char :=
  l.map (fun c => if 0x2013 ≤ c.toNat ∧ c.toNat ≤ 0x2212 then '–' else c)

/-- Sentinel detection on the lowercased, dash-normalized, stripped string. -/
def sentinelB (low : List Char) : Bool :=
  containsSub "not recommend".data low ||
    low = "n/a".data || low = "na".data || low = "none".data ||
    low = "not recommended".data

/-- Parsing front half of `get_nepali_sowing_dates`: empty-input and sentinel
checks, dash normalization, split, and extraction of the two raw month tokens
(`months[0].strip()` and `months[1].split("(")[0].strip()`); `none` models the
early `return []` paths. -/
def extractTokens (nep_range : String) : Option (List Char × List Char) :=
  if nep_range = "" then none
  else
    let s := dashNorm (pyStrip nep_range.data)
    let low := pyLower s
    if sentinelB low then none
    else
      match splitOnChar '–' s with
      | m0 :: m1 :: _ => some (pyStrip m0, pyStrip (m1.takeWhile (fun c => c ≠ '(')))
      | _ => none

/-- Candidate sowing window anchored at base year `y`: start at
`(y, startMonth, startDay)`, end at `(y + 1 when the range wraps the year
else y, endMonth, endDay)`. Window A of the code is `windowFor k1 k2 year`,
window B is `windowFor k1 k2 (year - 1)`. -/
def windowFor (k1 k2 : String) (y : Int) : Date × Date :=
  (⟨y, (lookupMonth k1).1, (lookupMonth k1).2⟩,
   ⟨if (lookupMonth k2).1 < (lookupMonth k1).1 then y + 1 else y,
    (lookupMonth k2).1, (lookupMonth k2).2⟩)

/-- Window selection of `get_nepali_sowing_dates`: prefer the current-year
window, then last year's, else fall back to the current-year window. -/
def selectWindow (k1 k2 : String) (today : Date) : Date × Date :=
  let w1 := windowFor k1 k2 today.year
  let w2 := windowFor k1 k2 (today.year - 1)
  if dateLe w1.1 today && dateLe today w1.2 then w1
  else if dateLe w2.1 today && dateLe today w2.2 then w2
  else w1

/-- Signed day distance `(end - start).days` of a window. -/
def ordDelta (w : Date × Date) : Int := toOrdinal w.2 - toOrdinal w.1

/-- The list comprehension
`[start + timedelta(days=i) for i in range(delta + 1)]`. -/
def enumWindow (w : Date × Date) : List Date :=
  (List.range (ordDelta w + 1).toNat).map (fun i => addDays w.1 i)

/-- Back half of `get_nepali_sowing_dates` once both tokens normalized. -/
def resolveKeys (k1 k2 : String) (today : Date) : List Date :=
  enumWindow (selectWindow k1 k2 today)

/-- The `get_nepali_sowing_dates` function, with `datetime.date.today()`
passed explicitly and a raised `ValueError` modelled as `Except.error`. -/
def get_nepali_sowing_dates (nep_range : String) (today : Date) :
    Except NormError (List Date) :=
  match extractTokens nep_range with
  | none => Except.ok []
  | some (t1, t2) =>
    match _normalize_nepali_month (String.mk t1) with
    | Except.error e => Except.error e
    | Except.ok k1 =>
      match _normalize_nepali_month (String.mk t2) with
      | Except.error e => Except.error e
      | Except.ok k2 => Except.ok (resolveKeys k1 k2 today)

/-! ## The batch driver `get_crops_for_place` -/

/-- One row of the `clean.csv` dataframe: crop, variety and the three optional
sowing-range columns (`None` models a null/NaN cell). -/
structure CropRow where
  crop : String
  variety : String
  highHill : Option String
  midHill : Option String
  teraiBensi : Option String
deriving DecidableEq

/-- The three sowing columns. -/
inductive SowCol where
  | high : SowCol
  | mid : SowCol
  | terai : SowCol
deriving DecidableEq

/-- Column accessor. -/
def colOf : SowCol → CropRow → Option String
  | .high, r => r.highHill
  | .mid, r => r.midHill
  | .terai, r => r.teraiBensi

/-- Place-name dispatch of `get_crops_for_place` (substring tests on the
lowercased place name). -/
def placeCol (place : String) : Option SowCol :=
  let low := pyLower place.data
  if containsSub "high".data low then some .high
  else if containsSub "mid".data low then some .mid
  else if containsSub "terai".data low || containsSub "bensi".data low then some .terai
  else none

/-- Python dict assignment `result[key] = v` on an insertion-ordered dict. -/
def dictInsert (m : List (String × List Date)) (k : String) (v : List Date) :
    List (String × List Date) :=
  if m.any (fun p => p.1 = k) then m.map (fun p => if p.1 = k then (k, v) else p)
  else m ++ [(k, v)]

/-- The row loop of `get_crops_for_place`: on the first row whose range raises,
return `(None, labeled message)` — every remaining row is dropped. -/
def cropsLoop (today : Date) :
    List (CropRow × String) → List (String × List Date) →
      Option (List (String × List Date)) × Option String
  | [], acc => (some acc, none)
  | (r, rng) :: rest, acc =>
    match get_nepali_sowing_dates rng today with
    | Except.error e =>
      (none, some ("Error parsing sowing range '" ++ rng ++ "': " ++ errMsg e))
    | Except.ok dates =>
      cropsLoop today rest (dictInsert acc (r.crop ++ " - " ++ r.variety) dates)

/-- The `get_crops_for_place` function over an explicit dataframe `table` and
explicit `today`: column dispatch, `notna` filtering, then the row loop. -/
def get_crops_for_place (table : List CropRow) (place : String) (today : Date) :
    Option (List (String × List Date)) × Option String :=
  match placeCol place with
  | none => (none, some "Place not recognized")
  | some c =>
    cropsLoop today
      (table.filterMap (fun r => (colOf c r).map (fun rng => (r, rng)))) []

/-- Two-row table used to exhibit the batch-abort behavior: the first row's
range has an unrecognizable start month, the second row's range is valid. -/
def demoRows : List CropRow :=
  [⟨"Wheat", "Local", some "Xyzzy–Jestha", none, none⟩,
   ⟨"Maize", "Hybrid", some "Baisakh–Jestha", none, none⟩]

/-! ## Arithmetic facts about the ordinal encoding and the anchor table -/

/-- A Gregorian year contains at least 365 days. -/
theorem dbyStep (y : Int) : 365 ≤ dby (y + 1) - dby y := by
  unfold dby
  omega

/-- The leap-day adjustment is 0 or 1. -/
theorem laAdj_bounds (y m : Int) : 0 ≤ laAdj y m ∧ laAdj y m ≤ 1 := by
  unfold laAdj
  split_ifs <;> omega

/-- The leap-day adjustment is monotone in the month. -/
theorem laAdj_mono (y : Int) {m1 m2 : Int} (h : m1 ≤ m2) :
    laAdj y m1 ≤ laAdj y m2 := by
  unfold laAdj
  split_ifs with h1 h2
  · omega
  · exact absurd ⟨by omega, h1.2⟩ h2
  · omega
  · omega

/-- Same-year monotonicity of the anchors: a later (or equal) anchor month has
a later (or equal) non-leap day-of-year position. -/
theorem anchMono : ∀ k1 ∈ monthKeys, ∀ k2 ∈ monthKeys,
    (lookupMonth k1).1 ≤ (lookupMonth k2).1 →
    dbmTable (lookupMonth k1).1 + (lookupMonth k1).2 ≤
      dbmTable (lookupMonth k2).1 + (lookupMonth k2).2 := by decide

/-- Year-wrapping bound: no anchor is more than 364 non-leap days after any
earlier-month anchor. -/
theorem anchCross : ∀ k1 ∈ monthKeys, ∀ k2 ∈ monthKeys,
    (lookupMonth k2).1 < (lookupMonth k1).1 →
    dbmTable (lookupMonth k1).1 + (lookupMonth k1).2 -
      dbmTable (lookupMonth k2).1 - (lookupMonth k2).2 ≤ 364 := by decide

/-- The anchor table assigns distinct Gregorian months to distinct keys, so an
equal anchor month forces an equal anchor day. -/
theorem anchInj : ∀ k1 ∈ monthKeys, ∀ k2 ∈ monthKeys,
    (lookupMonth k1).1 = (lookupMonth k2).1 →
    (lookupMonth k1).2 = (lookupMonth k2).2 := by decide

/-- Every candidate window has nonnegative day span. -/
theorem windowFor_delta_nonneg (k1 k2 : String) (h1 : k1 ∈ monthKeys)
    (h2 : k2 ∈ monthKeys) (y : Int) : 0 ≤ ordDelta (windowFor k1 k2 y) := by
  have hstep := dbyStep y
  have hb1 := laAdj_bounds y (lookupMonth k1).1
  have hb2 := laAdj_bounds (y + 1) (lookupMonth k2).1
  unfold ordDelta windowFor toOrdinal
  dsimp only
  by_cases hc : (lookupMonth k2).1 < (lookupMonth k1).1
  · rw [if_pos hc]
    have hcross := anchCross k1 h1 k2 h2 hc
    omega
  · rw [if_neg hc]
    have hle : (lookupMonth k1).1 ≤ (lookupMonth k2).1 := by omega
    have hmono := anchMono k1 h1 k2 h2 hle
    have hlam := laAdj_mono y hle
    omega

@[simp] theorem year_mk (y m d : Int) : (Date.mk y m d).year = y := rfl

@[simp] theorem month_mk (y m d : Int) : (Date.mk y m d).month = m := rfl

@[simp] theorem day_mk (y m d : Int) : (Date.mk y m d).day = d := rfl

/-- Boolean `<` implies boolean `≤` on dates. -/
theorem dateLe_of_dateLt {a b : Date} (h : dateLt a b = true) : dateLe a b = true := by
  unfold dateLe
  rw [h]
  rfl

/-- Boolean `≤` on dates is reflexive. -/
theorem dateLe_refl (d : Date) : dateLe d d = true := by
  unfold dateLe
  simp

/-- Every candidate window's start date is at most its end date. -/
theorem windowFor_le (k1 k2 : String) (h1 : k1 ∈ monthKeys) (h2 : k2 ∈ monthKeys)
    (y : Int) : dateLe (windowFor k1 k2 y).1 (windowFor k1 k2 y).2 = true := by
  unfold windowFor
  dsimp only
  by_cases hc : (lookupMonth k2).1 < (lookupMonth k1).1
  · rw [if_pos hc]
    apply dateLe_of_dateLt
    simp [dateLt, Int.lt_add_one_iff]
  · rw [if_neg hc]
    rcases lt_or_eq_of_le (le_of_not_lt hc) with hlt | heq
    · apply dateLe_of_dateLt
      simp [dateLt, hlt]
    · have hd := anchInj k1 h1 k2 h2 heq
      rw [← heq, ← hd]
      exact dateLe_refl _

/-- The selected window is one of the two candidates. -/
theorem selectWindow_cases (k1 k2 : String) (t : Date) :
    selectWindow k1 k2 t = windowFor k1 k2 t.year ∨
      selectWindow k1 k2 t = windowFor k1 k2 (t.year - 1) := by
  simp only [selectWindow]
  split_ifs <;> simp

/-! ## Facts about the day-by-day enumeration -/

theorem addDays_zero (d : Date) : addDays d 0 = d := rfl

theorem addDays_succ (d : Date) (n : Nat) :
    addDays d (n + 1) = nextDay (addDays d n) :=
  Function.iterate_succ_apply' nextDay n d

/-- The calendar successor is strictly later. -/
theorem dateLt_nextDay (d : Date) : dateLt d (nextDay d) = true := by
  unfold nextDay
  split_ifs <;> simp [dateLt, Int.lt_add_one_iff]

/-- Length of the enumerated window. -/
theorem enumWindow_length (w : Date × Date) (h : 0 ≤ ordDelta w) :
    (enumWindow w).length = (ordDelta w).toNat + 1 := by
  unfold enumWindow
  rw [List.length_map, List.length_range]
  omega

/-- The enumerated window starts at the window's start date. -/
theorem enumWindow_head (w : Date × Date) (h : 0 ≤ ordDelta w) :
    (enumWindow w).head? = some w.1 := by
  unfold enumWindow
  have hn : (ordDelta w + 1).toNat = (ordDelta w).toNat + 1 := by omega
  rw [hn, List.range_succ_eq_map]
  simp [addDays_zero]

/-- The enumerated window of a nonnegative-span window is nonempty. -/
theorem enumWindow_ne_nil (w : Date × Date) (h : 0 ≤ ordDelta w) :
    enumWindow w ≠ [] := by
  intro hnil
  have hl := enumWindow_length w h
  rw [hnil] at hl
  simp at hl

/-- Consecutive enumerated dates are calendar successors, hence strictly
increasing. -/
theorem enumWindow_chain (w : Date × Date) :
    List.Chain' (fun a b => b = nextDay a ∧ dateLt a b = true) (enumWindow w) := by
  unfold enumWindow
  rw [List.chain'_map]
  generalize (ordDelta w + 1).toNat = n
  cases n with
  | zero => simp
  | succ k =>
    rw [List.chain'_range_succ]
    intro m _
    rw [addDays_succ]
    exact ⟨rfl, dateLt_nextDay _⟩

/-! ## Structural facts about the normalizer and resolver -/

/-- Python `split` never yields an empty segment list. -/
theorem splitOnChar_ne_nil (c : Char) (l : List Char) : splitOnChar c l ≠ [] := by
  induction l with
  | nil => simp [splitOnChar]
  | cons x xs ih =>
    unfold splitOnChar
    rcases h : splitOnChar c xs with _ | ⟨h1, t⟩
    · exact absurd h ih
    · split_ifs <;> simp

/-- A successful fuzzy match returns a canonical key. -/
theorem fuzzyMatch_mem (clean : List Char) (k : String)
    (h : fuzzyMatch clean = some k) : k ∈ monthKeys := by
  unfold fuzzyMatch at h
  exact List.mem_of_mem_filter (List.argmax_mem (Option.mem_def.mpr h))

/-- A successful normalization returns a canonical key. -/
theorem normalize_mem (name k : String)
    (h : _normalize_nepali_month name = Except.ok k) : k ∈ monthKeys := by
  by_cases hne : name = ""
  · unfold _normalize_nepali_month at h
    rw [if_pos hne] at h
    exact Except.noConfusion h
  · unfold _normalize_nepali_month at h
    rw [if_neg hne] at h
    split at h
    next k' heq =>
      injection h with h'
      exact h' ▸ List.mem_of_find?_eq_some heq
    next =>
      split at h
      next p heq =>
        injection h with h'
        have hp := List.mem_of_find?_eq_some heq
        have hall : ∀ q ∈ aliasTable, q.2 ∈ monthKeys := by decide
        exact h' ▸ hall p hp
      next =>
        split at h
        next k' heq =>
          injection h with h'
          exact h' ▸ fuzzyMatch_mem _ _ heq
        next =>
          split at h
          next k' heq =>
            injection h with h'
            exact h' ▸ List.mem_of_find?_eq_some heq
          next => exact Except.noConfusion h

/-- Once both tokens normalize, the resolver returns the enumerated selected
window. -/
theorem resolve_reaches (s : String) (today : Date) (t1 t2 : List Char)
    (k1 k2 : String)
    (hext : extractTokens s = some (t1, t2))
    (h1 : _normalize_nepali_month (String.mk t1) = Except.ok k1)
    (h2 : _normalize_nepali_month (String.mk t2) = Except.ok k2) :
    get_nepali_sowing_dates s today = Except.ok (resolveKeys k1 k2 today) := by
  simp only [get_nepali_sowing_dates, hext, h1, h2]

/-- A raised normalization error on any row makes the loop return `(none, labeled
message)` no matter what rows follow. -/
theorem cropsLoop_abort (today : Date) (r : CropRow) (rng : String) (e : NormError)
    (rest : List (CropRow × String))
    (he : get_nepali_sowing_dates rng today = Except.error e) :
    ∀ (pre : List (CropRow × String)) (acc : List (String × List Date)),
      (∀ p ∈ pre, ∃ l, get_nepali_sowing_dates p.2 today = Except.ok l) →
      cropsLoop today (pre ++ (r, rng) :: rest) acc =
        (none, some ("Error parsing sowing range '" ++ rng ++ "': " ++ errMsg e)) := by
  intro pre
  induction pre with
  | nil =>
    intro acc _
    simp only [List.nil_append, cropsLoop, he]
  | cons p ps ih =>
    intro acc hok
    obtain ⟨pr, prng⟩ := p
    obtain ⟨l, hl⟩ := hok (pr, prng) (by simp)
    simp only [List.cons_append, cropsLoop, hl]
    exact ih _ (fun q hq => hok q (by simp [hq]))

/-! ## Claim theorems -/

/-- C1 (counterexample): the claim that a parsing failure on one crop leaves
entries for the other crops is false — on a two-row table whose first row's
range has an unrecognizable month and whose second row's range is valid,
`get_crops_for_place` returns no result dict at all, only the single error,
even though the second crop's range resolves to a nonempty date list. -/
theorem c1_counterexample :
    get_crops_for_place demoRows "high hill" ⟨2024, 5, 1⟩ =
      (none, some "Error parsing sowing range 'Xyzzy–Jestha': Unrecognized Nepali month name: 'Xyzzy'") ∧
    (∃ l, get_nepali_sowing_dates "Baisakh–Jestha" ⟨2024, 5, 1⟩ = Except.ok l ∧ l ≠ []) :=
  ⟨by decide, ⟨resolveKeys "Baisakh" "Jestha" ⟨2024, 5, 1⟩, by decide, by decide⟩⟩

/-- C1 (amended): a normalization failure on any crop's raw range aborts the
whole call: whenever the filtered crop rows split as `pre ++ (r, rng) :: rest`
with every `pre` range resolving and `rng` raising, `get_crops_for_place`
returns `(none, message labeled with the raw range)` and no entries at all —
the rows in `rest` are never processed. -/
theorem c1_batch_abort (table : List CropRow) (place : String) (today : Date)
    (c : SowCol) (pre : List (CropRow × String)) (r : CropRow) (rng : String)
    (rest : List (CropRow × String)) (e : NormError)
    (hcol : placeCol place = some c)
    (hrows : table.filterMap (fun row => (colOf c row).map (fun v => (row, v))) =
      pre ++ (r, rng) :: rest)
    (hok : ∀ p ∈ pre, ∃ l, get_nepali_sowing_dates p.2 today = Except.ok l)
    (he : get_nepali_sowing_dates rng today = Except.error e) :
    get_crops_for_place table place today =
      (none, some ("Error parsing sowing range '" ++ rng ++ "': " ++ errMsg e)) := by
  simp only [get_crops_for_place, hcol, hrows]
  exact cropsLoop_abort today r rng e rest he pre [] hok

/-- C1 (witness): the amended claim applied to the two-row demo table. -/
theorem c1_batch_abort_witness :
    get_crops_for_place demoRows "high hill" ⟨2024, 5, 1⟩ =
      (none, some ("Error parsing sowing range '" ++ "Xyzzy–Jestha" ++ "': " ++
        errMsg (NormError.unrecognizedMonth "Xyzzy"))) :=
  c1_batch_abort demoRows "high hill" ⟨2024, 5, 1⟩ SowCol.high []
    ⟨"Wheat", "Local", some "Xyzzy–Jestha", none, none⟩ "Xyzzy–Jestha"
    [(⟨"Maize", "Hybrid", some "Baisakh–Jestha", none, none⟩, "Baisakh–Jestha")]
    (NormError.unrecognizedMonth "Xyzzy") (by decide) (by decide)
    (by intro p hp; cases hp) (by decide)

/-- C2 (code bug): the separator glyphs are NOT all equivalent. Em-dash and
minus-sign variants resolve exactly like the en-dash variant, but the ASCII
hyphen variant is left unsplit (the character class `[—-−–]` denotes the
range U+2014..U+2212 plus U+2013, which excludes U+002D) and yields the empty
list instead of the 32-day window. -/
theorem c2_hyphen_code_bug :
    get_nepali_sowing_dates "Baisakh—Jestha" ⟨2024, 5, 1⟩ =
      get_nepali_sowing_dates "Baisakh–Jestha" ⟨2024, 5, 1⟩ ∧
    get_nepali_sowing_dates "Baisakh−Jestha" ⟨2024, 5, 1⟩ =
      get_nepali_sowing_dates "Baisakh–Jestha" ⟨2024, 5, 1⟩ ∧
    get_nepali_sowing_dates "Baisakh-Jestha" ⟨2024, 5, 1⟩ = Except.ok [] ∧
    get_nepali_sowing_dates "Baisakh-Jestha" ⟨2024, 5, 1⟩ ≠
      get_nepali_sowing_dates "Baisakh–Jestha" ⟨2024, 5, 1⟩ :=
  ⟨by decide, by decide, by decide, by decide⟩

/-- C3 (counterexample): a whitespace-only token does not fail with
`EmptyInput`; it falls through to the prefix strategy, which matches the empty
prefix against every canonical name and returns the first one, Baisakh. -/
theorem c3_counterexample : _normalize_nepali_month " " = Except.ok "Baisakh" := by
  decide

/-- C3 (amended): only the genuinely empty token fails with `EmptyInput`;
every nonempty token that trims to whitespace-only is instead resolved by the
prefix strategy to Baisakh. -/
theorem c3_empty_vs_whitespace :
    _normalize_nepali_month "" = Except.error NormError.emptyInput ∧
    ∀ name : String, name ≠ "" → pyStrip name.data = [] →
      _normalize_nepali_month name = Except.ok "Baisakh" := by
  refine ⟨by decide, ?_⟩
  intro name hne hws
  simp only [_normalize_nepali_month, if_neg hne, hws]
  rfl

/-- C3 (witness): the amended claim applied to a tab-only token. -/
theorem c3_empty_vs_whitespace_witness :
    _normalize_nepali_month "\t" = Except.ok "Baisakh" :=
  c3_empty_vs_whitespace.2 "\t" (by decide) (by decide)

/-- C4 (counterexample): a non-sentinel input with fewer than two dash-split
segments does not produce a distinct error: `"Baisakh"` yields `Except.ok []`,
the very same observable outcome as the sentinel `"n/a"`. -/
theorem c4_counterexample :
    get_nepali_sowing_dates "Baisakh" ⟨2024, 5, 1⟩ = Except.ok [] ∧
    get_nepali_sowing_dates "Baisakh" ⟨2024, 5, 1⟩ =
      get_nepali_sowing_dates "n/a" ⟨2024, 5, 1⟩ :=
  ⟨by decide, by decide⟩

/-- C4 (amended): for every non-sentinel, nonempty input whose dash-normalized
form splits into fewer than two segments, the resolver returns the empty list
without raising — an outcome identical to the `NotApplicable` sentinel outcome,
not a distinguishable `MalformedRange` error. -/
theorem c4_malformed_as_empty (s : String) (today : Date)
    (hne : s ≠ "")
    (hsent : sentinelB (pyLower (dashNorm (pyStrip s.data))) = false)
    (hlen : (splitOnChar '–' (dashNorm (pyStrip s.data))).length < 2) :
    get_nepali_sowing_dates s today = Except.ok [] ∧
    get_nepali_sowing_dates s today = get_nepali_sowing_dates "n/a" today := by
  have hext : extractTokens s = none := by
    simp only [extractTokens, if_neg hne, hsent, Bool.false_eq_true, if_false]
    rcases hsp : splitOnChar '–' (dashNorm (pyStrip s.data)) with _ | ⟨a, _ | ⟨b, t⟩⟩
    · exact absurd hsp (splitOnChar_ne_nil _ _)
    · rfl
    · rw [hsp] at hlen
      simp only [List.length_cons] at hlen
      exact absurd hlen (by omega)
  have hna : extractTokens "n/a" = none := by decide
  rw [get_nepali_sowing_dates, get_nepali_sowing_dates, hext, hna]
  exact ⟨rfl, rfl⟩

/-- C4 (witness): the amended claim applied to the one-segment input
`"Baisakh"`. -/
theorem c4_malformed_as_empty_witness :
    get_nepali_sowing_dates "Baisakh" ⟨2024, 5, 1⟩ = Except.ok [] ∧
    get_nepali_sowing_dates "Baisakh" ⟨2024, 5, 1⟩ =
      get_nepali_sowing_dates "n/a" ⟨2024, 5, 1⟩ :=
  c4_malformed_as_empty "Baisakh" ⟨2024, 5, 1⟩ (by decide) (by decide) (by decide)

/-- C5: with today = 2024-05-01, resolving `"Baisakh–Jestha"` returns the
inclusive daily sequence from 2024-04-14 to 2024-05-15, of length 32. -/
theorem c5_concrete_window :
    ∃ l, get_nepali_sowing_dates "Baisakh–Jestha" ⟨2024, 5, 1⟩ = Except.ok l ∧
      l.head? = some ⟨2024, 4, 14⟩ ∧ l.getLast? = some ⟨2024, 5, 15⟩ ∧
      l.length = 32 :=
  ⟨resolveKeys "Baisakh" "Jestha" ⟨2024, 5, 1⟩, by decide, by decide, by decide,
    by decide⟩

/-- C6: for every parseable range whose end anchor month is numerically
smaller than its start anchor month, and every today, the selected window's
end year is exactly its start year plus one, and the resolver returns that
window's enumeration. -/
theorem c6_year_wrap (s : String) (today : Date) (t1 t2 : List Char)
    (k1 k2 : String)
    (hext : extractTokens s = some (t1, t2))
    (h1 : _normalize_nepali_month (String.mk t1) = Except.ok k1)
    (h2 : _normalize_nepali_month (String.mk t2) = Except.ok k2)
    (hcross : (lookupMonth k2).1 < (lookupMonth k1).1) :
    (selectWindow k1 k2 today).2.year = (selectWindow k1 k2 today).1.year + 1 ∧
    get_nepali_sowing_dates s today =
      Except.ok (enumWindow (selectWindow k1 k2 today)) := by
  constructor
  · rcases selectWindow_cases k1 k2 today with h | h <;>
      rw [h] <;> simp [windowFor, if_pos hcross]
  · exact resolve_reaches s today t1 t2 k1 k2 hext h1 h2

/-- C6 (witness): the year-wrap invariant at the range `"Poush–Magh"` with
today = 2024-05-01. -/
theorem c6_year_wrap_witness :
    (selectWindow "Poush" "Magh" ⟨2024, 5, 1⟩).2.year =
      (selectWindow "Poush" "Magh" ⟨2024, 5, 1⟩).1.year + 1 ∧
    get_nepali_sowing_dates "Poush–Magh" ⟨2024, 5, 1⟩ =
      Except.ok (enumWindow (selectWindow "Poush" "Magh" ⟨2024, 5, 1⟩)) :=
  c6_year_wrap "Poush–Magh" ⟨2024, 5, 1⟩ "Poush".data "Magh".data "Poush" "Magh"
    (by decide) (by decide) (by decide) (by decide)

/-- C7: for every parseable two-month range and every today contained in
neither candidate window, the resolver still returns Window A's (current-year)
enumeration, which is nonempty. -/
theorem c7_out_of_season_fallback (s : String) (today : Date)
    (t1 t2 : List Char) (k1 k2 : String)
    (hext : extractTokens s = some (t1, t2))
    (h1 : _normalize_nepali_month (String.mk t1) = Except.ok k1)
    (h2 : _normalize_nepali_month (String.mk t2) = Except.ok k2)
    (hA : (dateLe (windowFor k1 k2 today.year).1 today &&
        dateLe today (windowFor k1 k2 today.year).2) = false)
    (hB : (dateLe (windowFor k1 k2 (today.year - 1)).1 today &&
        dateLe today (windowFor k1 k2 (today.year - 1)).2) = false) :
    get_nepali_sowing_dates s today =
      Except.ok (enumWindow (windowFor k1 k2 today.year)) ∧
    enumWindow (windowFor k1 k2 today.year) ≠ [] := by
  have hsel : selectWindow k1 k2 today = windowFor k1 k2 today.year := by
    simp only [selectWindow, hA, hB, Bool.false_eq_true, if_false]
  constructor
  · have hr := resolve_reaches s today t1 t2 k1 k2 hext h1 h2
    rw [hr]
    simp only [resolveKeys, hsel]
  · exact enumWindow_ne_nil _
      (windowFor_delta_nonneg k1 k2 (normalize_mem _ _ h1) (normalize_mem _ _ h2)
        today.year)

/-- C7 (witness): `"Baisakh–Jestha"` with today = 2024-07-01, which lies after
this year's window and after last year's. -/
theorem c7_out_of_season_fallback_witness :
    get_nepali_sowing_dates "Baisakh–Jestha" ⟨2024, 7, 1⟩ =
      Except.ok (enumWindow (windowFor "Baisakh" "Jestha" (2024 : Int))) ∧
    enumWindow (windowFor "Baisakh" "Jestha" (2024 : Int)) ≠ [] :=
  c7_out_of_season_fallback "Baisakh–Jestha" ⟨2024, 7, 1⟩ "Baisakh".data
    "Jestha".data "Baisakh" "Jestha" (by decide) (by decide) (by decide)
    (by decide) (by decide)

/-- C8: every date sequence produced for a successfully parsed range is the
enumeration of the selected window, whose start is at most its end; the
sequence starts at the window start, has length `(end − start in days) + 1`,
and each element is followed by its calendar successor (hence the sequence is
strictly increasing day by day). -/
theorem c8_sequence_invariants (s : String) (today : Date) (t1 t2 : List Char)
    (k1 k2 : String)
    (hext : extractTokens s = some (t1, t2))
    (h1 : _normalize_nepali_month (String.mk t1) = Except.ok k1)
    (h2 : _normalize_nepali_month (String.mk t2) = Except.ok k2) :
    get_nepali_sowing_dates s today =
      Except.ok (enumWindow (selectWindow k1 k2 today)) ∧
    dateLe (selectWindow k1 k2 today).1 (selectWindow k1 k2 today).2 = true ∧
    (enumWindow (selectWindow k1 k2 today)).head? =
      some (selectWindow k1 k2 today).1 ∧
    (enumWindow (selectWindow k1 k2 today)).length =
      (ordDelta (selectWindow k1 k2 today)).toNat + 1 ∧
    List.Chain' (fun a b => b = nextDay a ∧ dateLt a b = true)
      (enumWindow (selectWindow k1 k2 today)) := by
  have hm1 := normalize_mem _ _ h1
  have hm2 := normalize_mem _ _ h2
  have hd : 0 ≤ ordDelta (selectWindow k1 k2 today) := by
    rcases selectWindow_cases k1 k2 today with h | h <;> rw [h] <;>
      exact windowFor_delta_nonneg k1 k2 hm1 hm2 _
  have hle : dateLe (selectWindow k1 k2 today).1 (selectWindow k1 k2 today).2 = true := by
    rcases selectWindow_cases k1 k2 today with h | h <;> rw [h] <;>
      exact windowFor_le k1 k2 hm1 hm2 _
  exact ⟨resolve_reaches s today t1 t2 k1 k2 hext h1 h2, hle,
    enumWindow_head _ hd, enumWindow_length _ hd, enumWindow_chain _⟩

/-- C8 (witness): the invariants at `"Baisakh–Jestha"`, today = 2024-05-01. -/
theorem c8_sequence_invariants_witness :
    get_nepali_sowing_dates "Baisakh–Jestha" ⟨2024, 5, 1⟩ =
      Except.ok (enumWindow (selectWindow "Baisakh" "Jestha" ⟨2024, 5, 1⟩)) ∧
    dateLe (selectWindow "Baisakh" "Jestha" ⟨2024, 5, 1⟩).1
      (selectWindow "Baisakh" "Jestha" ⟨2024, 5, 1⟩).2 = true ∧
    (enumWindow (selectWindow "Baisakh" "Jestha" ⟨2024, 5, 1⟩)).head? =
      some (selectWindow "Baisakh" "Jestha" ⟨2024, 5, 1⟩).1 ∧
    (enumWindow (selectWindow "Baisakh" "Jestha" ⟨2024, 5, 1⟩)).length =
      (ordDelta (selectWindow "Baisakh" "Jestha" ⟨2024, 5, 1⟩)).toNat + 1 ∧
    List.Chain' (fun a b => b = nextDay a ∧ dateLt a b = true)
      (enumWindow (selectWindow "Baisakh" "Jestha" ⟨2024, 5, 1⟩)) :=
  c8_sequence_invariants "Baisakh–Jestha" ⟨2024, 5, 1⟩ "Baisakh".data
    "Jestha".data "Baisakh" "Jestha" (by decide) (by decide) (by decide)

/-- C9: each of the 12 canonical month names normalizes to itself, as does its
upper-cased form and its whitespace-surrounded form, via the exact
case-insensitive strategy. -/
theorem c9_canonical_names :
    ∀ k ∈ monthKeys,
      _normalize_nepali_month k = Except.ok k ∧
      _normalize_nepali_month (pyUpper k) = Except.ok k ∧
      _normalize_nepali_month (" " ++ k ++ " ") = Except.ok k := by
  decide

/-- C9 (witness): the three forms of `"Mangsir"`. -/
theorem c9_canonical_names_witness :
    _normalize_nepali_month "Mangsir" = Except.ok "Mangsir" ∧
    _normalize_nepali_month (pyUpper "Mangsir") = Except.ok "Mangsir" ∧
    _normalize_nepali_month (" " ++ "Mangsir" ++ " ") = Except.ok "Mangsir" :=
  c9_canonical_names "Mangsir" (by decide)

/-- C10 (counterexample): the claim that resolve "does not fail" on every
input splitting into more than two segments is false: `"Xyzzy–Jestha–Ashad"`
splits into three segments yet resolve raises `UnrecognizedMonth` from
normalizing the first token. -/
theorem c10_counterexample :
    (splitOnChar '–' (dashNorm (pyStrip "Xyzzy–Jestha–Ashad".data))).length = 3 ∧
    get_nepali_sowing_dates "Xyzzy–Jestha–Ashad" ⟨2024, 5, 1⟩ =
      Except.error (NormError.unrecognizedMonth "Xyzzy") :=
  ⟨by decide, by decide⟩

/-- C10 (amended): for every string whose dash-normalized form splits into
segments `m0 :: m1 :: rest` (and passes the empty/sentinel guards), the split
stage never rejects the input: the start token is the first segment trimmed
and the end token is the second segment truncated at the first `(` and
trimmed, and the resolver's whole result is determined by those two tokens
alone — the further segments `rest` are silently ignored. The result is the
enumerated window when both tokens normalize, and the only possible failure
is a propagated normalization error on one of the two tokens. -/
theorem c10_extra_segments (s : String) (today : Date)
    (m0 m1 : List Char) (rest : List (List Char))
    (hne : s ≠ "")
    (hsent : sentinelB (pyLower (dashNorm (pyStrip s.data))) = false)
    (hsp : splitOnChar '–' (dashNorm (pyStrip s.data)) = m0 :: m1 :: rest) :
    extractTokens s =
      some (pyStrip m0, pyStrip (m1.takeWhile (fun c => c ≠ '('))) ∧
    get_nepali_sowing_dates s today =
      (match _normalize_nepali_month (String.mk (pyStrip m0)) with
       | Except.error e => Except.error e
       | Except.ok k1 =>
         match _normalize_nepali_month
             (String.mk (pyStrip (m1.takeWhile (fun c => c ≠ '(')))) with
         | Except.error e => Except.error e
         | Except.ok k2 => Except.ok (resolveKeys k1 k2 today)) := by
  have hext : extractTokens s =
      some (pyStrip m0, pyStrip (m1.takeWhile (fun c => c ≠ '('))) := by
    simp only [extractTokens, if_neg hne, hsent, Bool.false_eq_true, if_false, hsp]
  refine ⟨hext, ?_⟩
  rw [get_nepali_sowing_dates, hext]

/-- C10 (witness): the amended claim at the three-segment input
`"Baisakh–Jestha–Ashad"`, whose result ignores the `"Ashad"` segment. -/
theorem c10_extra_segments_witness :
    extractTokens "Baisakh–Jestha–Ashad" =
      some (pyStrip "Baisakh".data,
        pyStrip (List.takeWhile (fun c => c ≠ '(') "Jestha".data)) ∧
    get_nepali_sowing_dates "Baisakh–Jestha–Ashad" ⟨2024, 5, 1⟩ =
      (match _normalize_nepali_month (String.mk (pyStrip "Baisakh".data)) with
       | Except.error e => Except.error e
       | Except.ok k1 =>
         match _normalize_nepali_month
             (String.mk (pyStrip (List.takeWhile (fun c => c ≠ '(') "Jestha".data))) with
         | Except.error e => Except.error e
         | Except.ok k2 => Except.ok (resolveKeys k1 k2 ⟨2024, 5, 1⟩)) :=
  c10_extra_segments "Baisakh–Jestha–Ashad" ⟨2024, 5, 1⟩ "Baisakh".data
    "Jestha".data ["Ashad".data] (by decide) (by decide) (by decide)

end AgriFarm
